import Mathlib

/-!
Verification development for the link-click tracker (src/link_tracker.py).

The tracker records unique visitor IPs in a JSON file, mirrors them to a
CSV file, and redirects visitors to a fixed target URL.  This file gives a
shallow embedding of the data model and the four request handlers and
proves the specification claims about them.

Modelling conventions:
- Parsed JSON documents are values of the inductive type `Json`
  (numbers as integers; the store never holds fractional numbers).
- Python operations that can raise (`d[k]` on a missing key or non-dict,
  iterating a non-iterable, `.append` on a non-list, `len` of a sizeless
  value) return `Option`, with `none` standing for an unhandled fault.
  A handler that faults returns `none`; the state it would leave behind
  mid-fault is not observed by any claim, which all constrain completed
  invocations only.
- The pair of persisted files is a `FileSys`: the JSON store file (as a
  parse outcome `StoreFile`) and the CSV file (as its rows).
- Wall-clock readings are inputs carried by the request: `now` is the
  value the source's datetime.now().isoformat() call yields (the local
  clock) and `utcNow` is the reading a UTC clock would give at the same
  instant.  The source consults only the local clock.
-/

/-- A parsed JSON value (the store file never holds fractional numbers,
so numbers are modelled as integers). -/
inductive Json where
  | null : Json
  | bool : Bool → Json
  | num : Int → Json
  | str : String → Json
  | arr : List Json → Json
  | obj : List (String × Json) → Json

/-- Python `d[k]`: key lookup on a dict; raises (here: `none`) on a
missing key or on a non-dict value. -/
def Json.get (j : Json) (k : String) : Option Json :=
  match j with
  | .obj fields => fields.lookup k
  | _ => none

/-- Python `d.get(k, default)`: total on dicts, raises on non-dicts. -/
def Json.dictGetD (j : Json) (k : String) (d : Json) : Option Json :=
  match j with
  | .obj fields => some ((fields.lookup k).getD d)
  | _ => none

/-- Python dict item assignment `d[k] = v` (equivalently, the in-place
mutation of the list object stored under `k`): replaces the first binding
of `k`, appends a binding when the key is absent.  Identity on non-dicts
(never reached: the source only assigns after a successful lookup). -/
def setKey : List (String × Json) → String → Json → List (String × Json)
  | [], k, v => [(k, v)]
  | (k', v') :: rest, k, v =>
      if k' == k then (k, v) :: rest else (k', v') :: setKey rest k v

/-- See `setKey`. -/
def Json.objSet (j : Json) (k : String) (v : Json) : Json :=
  match j with
  | .obj fields => .obj (setKey fields k v)
  | _ => j

/-- Python iteration `for x in v`: lists yield their elements, strings
their characters, dicts their keys; other values raise. -/
def pyIter : Json → Option (List Json)
  | .arr xs => some xs
  | .str s => some (s.toList.map (fun c => Json.str (String.mk [c])))
  | .obj fields => some (fields.map (fun p => Json.str p.1))
  | _ => none

/-- Python `len(v)`: defined for lists, strings and dicts; raises
otherwise. -/
def pyLen : Json → Option Nat
  | .arr xs => some xs.length
  | .str s => some s.length
  | .obj fields => some fields.length
  | _ => none

/-- Python truthiness of a JSON value. -/
def pyTruthy : Json → Bool
  | .null => false
  | .bool b => b
  | .num n => n != 0
  | .str s => s != ""
  | .arr xs => !xs.isEmpty
  | .obj fields => !fields.isEmpty

/-- Python `list.append`: raises on non-lists. -/
def pyAppend (j : Json) (v : Json) : Option Json :=
  match j with
  | .arr xs => some (.arr (xs ++ [v]))
  | _ => none

/-- Python `==` between a string and a JSON value: true exactly for an
equal string (cross-type comparison is `False`). -/
def pyEqStr (s : String) : Json → Bool
  | .str t => s == t
  | _ => false

/-- Python `str(v)` as the csv writer and the HTML template apply it.
Faithful on the scalar values that record fields actually hold; for
containers it is a schematic placeholder (no theorem in this file
evaluates it on a container). -/
def pyStr : Json → String
  | .str s => s
  | .num n => toString n
  | .bool true => "True"
  | .bool false => "False"
  | .null => "None"
  | .arr _ => "[...]"
  | .obj _ => "\x7b...\x7d"

/-- A Python list comprehension `[f c for c in cs]` over fallible `f`:
evaluates every element, the first raise aborts the whole handler. -/
def mapOpt (f : Json → Option α) : List Json → Option (List α)
  | [] => some []
  | c :: cs =>
      match f c with
      | none => none
      | some a =>
          match mapOpt f cs with
          | none => none
          | some as => some (a :: as)

/-- Configuration constants of the source. -/
def TARGET_URL : String :=
  "https://developer.huaweicloud.com/intl/en-us/activity/c64bd713260a42e7872e4138a2aef2db"

/-- Path of the JSON store file. -/
def DATA_FILE : String := "click_data.json"

/-- Path of the CSV mirror file. -/
def CSV_FILE : String := "click_data.csv"

/-- The JSON store file as the loader observes it: `absent` when the
path does not exist, `corrupt` when opening or parsing raises
(JSONDecodeError or IOError), `valid j` when json.load yields `j`. -/
inductive StoreFile where
  | absent : StoreFile
  | corrupt : StoreFile
  | valid : Json → StoreFile

/-- The two persisted files: the JSON store and the CSV mirror (as its
rows; `none` when the CSV file has not been written yet). -/
structure FileSys where
  dataFile : StoreFile
  csvFile : Option (List (List String))

/-- An incoming request: its headers (exact-name lookup list), the
transport-level peer address, and the two clock readings taken at the
instant the handler runs (`now` local, `utcNow` UTC; the source reads
only the local clock via datetime.now().isoformat()). -/
structure Req where
  headers : List (String × String)
  remote_addr : String
  now : String
  utcNow : String

/-- An HTTP response relevant to the claims: a redirect with its status
code. -/
inductive Response where
  | redirect : String → Nat → Response

/-- `load_data` of the source: returns the parsed document, or the
default empty log when the file is absent or unreadable/corrupt.  Total:
no error reaches the caller. -/
def load_data : StoreFile → Json
  | .absent => .obj [("clicks", .arr [])]
  | .corrupt => .obj [("clicks", .arr [])]
  | .valid j => j

/-- Python truthiness of `headers.get(k)`: false for an absent header
and for an empty value. -/
def truthy : Option String → Bool
  | none => false
  | some s => s != ""

/-- Splitting a character list at every occurrence of `sep`, keeping
empty segments, as Python's str.split with an explicit separator does. -/
def splitAux (sep : Char) : List Char → List Char → List (List Char)
  | [], acc => [acc.reverse]
  | c :: cs, acc =>
      if c = sep then acc.reverse :: splitAux sep cs []
      else splitAux sep cs (c :: acc)

/-- Python `s.split(sep)` for a one-character separator: every
occurrence splits, empty segments are kept, the empty string yields one
empty segment. -/
def pySplit (sep : Char) (s : String) : List String :=
  (splitAux sep s.toList []).map String.mk

/-- Python `s.strip()`: remove leading and trailing whitespace. -/
def pyStrip (s : String) : String :=
  String.mk (((s.toList.dropWhile Char.isWhitespace).reverse.dropWhile
    Char.isWhitespace).reverse)

/-- `get_client_ip` of the source: X-Forwarded-For first element when
that header is truthy, else X-Real-IP verbatim when truthy, else the
peer address. -/
def get_client_ip (headers : List (String × String)) (remote_addr : String) : String :=
  let fwd := headers.lookup "X-Forwarded-For"
  if truthy fwd then
    pyStrip ((pySplit ',' (fwd.getD "")).headD "")
  else
    let real := headers.lookup "X-Real-IP"
    if truthy real then real.getD ""
    else remote_addr

/-- CSV header row written by `save_data`. -/
def csvHeader : List String := ["IP Address", "Timestamp", "User Agent"]

/-- One CSV data row: `[click['ip'], click['timestamp'],
click.get('user_agent', 'N/A')]`, each stringified by the csv writer. -/
def csvRowOfClick (click : Json) : Option (List String) :=
  match click.get "ip" with
  | none => none
  | some ipVal =>
      match click.get "timestamp" with
      | none => none
      | some tsVal =>
          match click.dictGetD "user_agent" (.str "N/A") with
          | none => none
          | some uaVal => some [pyStr ipVal, pyStr tsVal, pyStr uaVal]

/-- `save_data` of the source: json.dump the whole document (first
component: the JSON file now holds `data`), then rewrite the CSV file
from `data['clicks']` (second component: header row plus one row per
click).  A fault while building the rows aborts the handler. -/
def save_data (data : Json) : Option (Json × List (List String)) :=
  match data.get "clicks" with
  | none => none
  | some clicksVal =>
      match pyIter clicksVal with
      | none => none
      | some items =>
          match mapOpt csvRowOfClick items with
          | none => none
          | some rows => some (data, csvHeader :: rows)

/-- `track_click` of the source: resolve the client IP, load the store,
scan `data['clicks']` for that IP, append-and-save when it is new, and
redirect to the target URL. -/
def track_click (req : Req) (fs : FileSys) : Option (FileSys × Response) :=
  let client_ip := get_client_ip req.headers req.remote_addr
  let user_agent := (req.headers.lookup "User-Agent").getD "Unknown"
  let timestamp := req.now
  let data := load_data fs.dataFile
  match data.get "clicks" with
  | none => none
  | some clicksVal =>
      match pyIter clicksVal with
      | none => none
      | some items =>
          match mapOpt (fun c => c.get "ip") items with
          | none => none
          | some existing_ips =>
              if existing_ips.any (pyEqStr client_ip) then
                some (fs, .redirect TARGET_URL 302)
              else
                let record : Json := .obj
                  [("ip", .str client_ip), ("timestamp", .str timestamp),
                   ("user_agent", .str user_agent)]
                match pyAppend clicksVal record with
                | none => none
                | some newClicks =>
                    let data2 := data.objSet "clicks" newClicks
                    match save_data data2 with
                    | none => none
                    | some saved =>
                        some ({ dataFile := .valid saved.1, csvFile := some saved.2 },
                              .redirect TARGET_URL 302)

/-- The data of the rendered HTML stats page: the visitor total, the
table rows (absent when the empty-state branch renders instead), and
the constants interpolated into the page footer. -/
structure StatsView where
  total_unique : Nat
  rows : Option (List (List String))
  target_url : String
  data_file : String
  csv_file : String

/-- One table row of the stats template: the template slices the
timestamp (`[:19]`, then replacing T by a space), which raises on a
missing or non-string timestamp; missing ip or user-agent render as the
empty string (Jinja undefined). -/
def clickRow (click : Json) : Option (List String) :=
  match click.get "timestamp" with
  | some (.str ts) =>
      let ipCell := match click.get "ip" with
        | some v => pyStr v
        | none => ""
      let uaCell := match click.get "user_agent" with
        | some v => pyStr v
        | none => ""
      some [ipCell, (ts.take 19).replace "T" " ", uaCell]
  | _ => none

/-- `show_stats` of the source: load the store, count `data['clicks']`,
render the visitor table when the clicks value is truthy, the
empty-state paragraph otherwise.  Read-only: the file system is
returned unchanged. -/
def show_stats (fs : FileSys) : Option (FileSys × StatsView) :=
  let data := load_data fs.dataFile
  match data.get "clicks" with
  | none => none
  | some clicksVal =>
      match pyLen clicksVal with
      | none => none
      | some n =>
          if pyTruthy clicksVal then
            match pyIter clicksVal with
            | none => none
            | some items =>
                match mapOpt clickRow items with
                | none => none
                | some rows =>
                    some (fs, ⟨n, some rows, TARGET_URL, DATA_FILE, CSV_FILE⟩)
          else
            some (fs, ⟨n, none, TARGET_URL, DATA_FILE, CSV_FILE⟩)

/-- `api_stats` of the source: load the store and return the JSON
payload.  Read-only. -/
def api_stats (fs : FileSys) : Option (FileSys × Json) :=
  let data := load_data fs.dataFile
  match data.get "clicks" with
  | none => none
  | some clicksVal =>
      match pyLen clicksVal with
      | none => none
      | some n =>
          some (fs, .obj
            [("total_unique_visitors", .num n),
             ("clicks", clicksVal),
             ("target_url", .str TARGET_URL)])

/-- `home` of the source: a static instructional page; its only dynamic
datum is the target URL interpolated into the body.  Read-only and
total. -/
def home (fs : FileSys) : Option (FileSys × String) :=
  some (fs, TARGET_URL)

/-- The click log currently stored in the JSON file: the list under the
`clicks` key of the loaded document, when that key holds a list. -/
def loadedClicks (fs : FileSys) : Option (List Json) :=
  match (load_data fs.dataFile).get "clicks" with
  | some (.arr l) => some l
  | _ => none

/-- The resolved client IP of a request. -/
def clientIpOf (r : Req) : String := get_client_ip r.headers r.remote_addr

/-- The user-agent a request contributes to its record. -/
def uaOf (r : Req) : String := (r.headers.lookup "User-Agent").getD "Unknown"

/-- The click record `track_click` builds for a request. -/
def recordOf (r : Req) : Json :=
  .obj [("ip", .str (clientIpOf r)), ("timestamp", .str r.now),
        ("user_agent", .str (uaOf r))]

/-- Run a sequence of track invocations left to right; any fault aborts
the run. -/
def runTrack : List Req → FileSys → Option FileSys
  | [], fs => some fs
  | r :: rs, fs =>
      match track_click r fs with
      | none => none
      | some (fs', _) => runTrack rs fs'

/-- The file system before any request: neither file exists yet. -/
def initFS : FileSys := { dataFile := .absent, csvFile := none }

/-- Replacing a key with `setKey` and looking it up gives the new value. -/
theorem lookup_setKey (l : List (String × Json)) (k : String) (v : Json) :
    (setKey l k v).lookup k = some v := by
  induction l with
  | nil => simp [setKey, List.lookup]
  | cons p rest ih =>
      obtain ⟨k', v'⟩ := p
      by_cases hk : k' = k
      · subst hk; simp [setKey, List.lookup]
      · have hb : (k == k') = false := by simp [Ne.symm hk]
        simp [setKey, List.lookup, hk, hb, ih]

/-- The JSON document `save_data` writes is exactly its argument. -/
theorem save_data_fst {d : Json} {p : Json × List (List String)}
    (h : save_data d = some p) : p.1 = d := by
  unfold save_data at h
  split at h
  · exact Option.noConfusion h
  · split at h
    · exact Option.noConfusion h
    · split at h
      · exact Option.noConfusion h
      · obtain rfl := Option.some.inj h; rfl

/-- Characterization of a completed `track_click` call: the response is
the fixed redirect, and the stored log is unchanged or gets exactly the
request's record appended. -/
theorem track_click_spec {req : Req} {fs fs' : FileSys} {resp : Response}
    (h : track_click req fs = some (fs', resp)) :
    resp = Response.redirect TARGET_URL 302 ∧
    (fs' = fs ∨ ∃ L, loadedClicks fs = some L ∧
        loadedClicks fs' = some (L ++ [recordOf req])) := by
  simp only [track_click] at h
  split at h
  · exact Option.noConfusion h
  · rename_i clicksVal hget
    split at h
    · exact Option.noConfusion h
    · rename_i items hiter
      split at h
      · exact Option.noConfusion h
      · rename_i existing hips
        split at h
        · -- already-recorded branch: state unchanged
          simp only [Option.some.injEq, Prod.mk.injEq] at h
          obtain ⟨rfl, rfl⟩ := h
          exact ⟨rfl, Or.inl rfl⟩
        · split at h
          · exact Option.noConfusion h
          · rename_i newClicks happ
            split at h
            · exact Option.noConfusion h
            · rename_i saved hsave
              simp only [Option.some.injEq, Prod.mk.injEq] at h
              obtain ⟨rfl, rfl⟩ := h
              refine ⟨rfl, Or.inr ?_⟩
              cases clicksVal with
              | arr L =>
                  refine ⟨L, ?_, ?_⟩
                  · simp [loadedClicks, hget]
                  · have h1 := save_data_fst hsave
                    simp only [pyAppend, Option.some.injEq] at happ
                    cases hD : load_data fs.dataFile with
                    | obj flds =>
                        rw [hD] at hget
                        have h2 : saved.1 = (Json.obj flds).objSet "clicks" newClicks := by
                          rw [h1, hD]
                        simp only [loadedClicks, load_data, h2, Json.objSet, Json.get,
                          lookup_setKey, ← happ]
                        simp [recordOf, clientIpOf, uaOf]
                    | null => rw [hD] at hget; simp [Json.get] at hget
                    | bool b => rw [hD] at hget; simp [Json.get] at hget
                    | num n => rw [hD] at hget; simp [Json.get] at hget
                    | str s => rw [hD] at hget; simp [Json.get] at hget
                    | arr xs => rw [hD] at hget; simp [Json.get] at hget
              | null => exact Option.noConfusion happ
              | bool b => exact Option.noConfusion happ
              | num n => exact Option.noConfusion happ
              | str s => exact Option.noConfusion happ
              | obj flds => exact Option.noConfusion happ

/-- A concrete request used to instantiate the track-handler theorems:
no forwarded headers, peer address 10.0.0.1, user-agent curl/8.0, taken
at an instant where the local clock and the UTC clock differ. -/
def wreqA : Req :=
  { headers := [("User-Agent", "curl/8.0")], remote_addr := "10.0.0.1",
    now := "2025-06-01T12:00:00", utcNow := "2025-06-01T16:00:00" }

/-- The record `track_click` appends for `wreqA`. -/
def wrecA : Json :=
  .obj [("ip", .str "10.0.0.1"), ("timestamp", .str "2025-06-01T12:00:00"),
        ("user_agent", .str "curl/8.0")]

/-- The file system after `track_click wreqA` runs on the empty store. -/
def wfsA : FileSys :=
  { dataFile := .valid (.obj [("clicks", .arr [wrecA])]),
    csvFile := some [csvHeader, ["10.0.0.1", "2025-06-01T12:00:00", "curl/8.0"]] }

/-- C6: every completed invocation of the track handler responds with an
HTTP 302 redirect to the fixed configured target URL, whatever the
request and whatever the store contents. -/
theorem track_always_redirects (req : Req) (fs fs' : FileSys) (resp : Response)
    (h : track_click req fs = some (fs', resp)) :
    resp = Response.redirect TARGET_URL 302 :=
  (track_click_spec h).1

/-- Witness for C6 at a concrete call. -/
theorem track_always_redirects_app :
    ∃ p, track_click wreqA initFS = some p ∧
      p.2 = Response.redirect TARGET_URL 302 :=
  ⟨(wfsA, .redirect TARGET_URL 302), rfl,
    track_always_redirects wreqA initFS wfsA (.redirect TARGET_URL 302) rfl⟩

/-- C8: a completed track invocation leaves the stored click log
unchanged (and the whole file system untouched), or extends it by
exactly one record appended at the end, so the prior log is a prefix of
the resulting log. -/
theorem track_append_at_most_one (req : Req) (fs fs' : FileSys) (resp : Response)
    (h : track_click req fs = some (fs', resp)) :
    fs' = fs ∨ ∃ L rec, loadedClicks fs = some L ∧
      loadedClicks fs' = some (L ++ [rec]) := by
  rcases (track_click_spec h).2 with h1 | ⟨L, h1, h2⟩
  · exact Or.inl h1
  · exact Or.inr ⟨L, recordOf req, h1, h2⟩

/-- Witness for C8 at a concrete call. -/
theorem track_append_at_most_one_app :
    wfsA = initFS ∨ ∃ L rec, loadedClicks initFS = some L ∧
      loadedClicks wfsA = some (L ++ [rec]) :=
  track_append_at_most_one wreqA initFS wfsA (.redirect TARGET_URL 302) rfl

/-- C5 (amended): the record a completed track invocation appends
carries the resolved IP, the local-clock timestamp datetime.now() read
at the request (not a UTC reading), and the request's User-Agent header
with default Unknown. -/
theorem track_record_fields (req : Req) (fs fs' : FileSys) (resp : Response)
    (h : track_click req fs = some (fs', resp)) :
    fs' = fs ∨ ∃ L, loadedClicks fs = some L ∧
      loadedClicks fs' = some (L ++
        [Json.obj [("ip", .str (clientIpOf req)), ("timestamp", .str req.now),
                   ("user_agent", .str ((req.headers.lookup "User-Agent").getD "Unknown"))]]) :=
  (track_click_spec h).2

/-- Witness for C5's amended theorem at a concrete call. -/
theorem track_record_fields_app :
    wfsA = initFS ∨ ∃ L, loadedClicks initFS = some L ∧
      loadedClicks wfsA = some (L ++
        [Json.obj [("ip", .str (clientIpOf wreqA)), ("timestamp", .str wreqA.now),
                   ("user_agent", .str ((wreqA.headers.lookup "User-Agent").getD "Unknown"))]]) :=
  track_record_fields wreqA initFS wfsA (.redirect TARGET_URL 302) rfl

/-- Counterexample to C5 as stated: at a request taken when the local
clock and the UTC clock disagree, the appended record carries the local
reading, not the UTC one, because the source calls datetime.now(). -/
theorem track_record_local_time_cex :
    ∃ fs' resp, track_click wreqA initFS = some (fs', resp) ∧
      loadedClicks fs' = some [.obj
        [("ip", .str "10.0.0.1"), ("timestamp", .str wreqA.now),
         ("user_agent", .str "curl/8.0")]] ∧
      wreqA.now ≠ wreqA.utcNow := by
  refine ⟨wfsA, .redirect TARGET_URL 302, rfl, rfl, ?_⟩
  decide

/-- Modelled from the claim's words (spec-side resolver): the first
comma-separated, trimmed element of X-Forwarded-For whenever that header
is present (with any value, including the empty one); else X-Real-IP
verbatim whenever present; else the peer address. -/
def resolveClaim (headers : List (String × String)) (remote_addr : String) : String :=
  match headers.lookup "X-Forwarded-For" with
  | some s => pyStrip ((pySplit ',' s).headD "")
  | none =>
      match headers.lookup "X-Real-IP" with
      | some s => s
      | none => remote_addr

/-- Counterexample to C2 as stated: with X-Forwarded-For present but
empty, the claimed resolver yields the empty string while the source's
truthiness test skips the header and returns the peer address. -/
theorem get_client_ip_empty_header_cex :
    resolveClaim [("X-Forwarded-For", "")] "7.7.7.7" = "" ∧
    get_client_ip [("X-Forwarded-For", "")] "7.7.7.7" = "7.7.7.7" ∧
    resolveClaim [("X-Forwarded-For", "")] "7.7.7.7" ≠
      get_client_ip [("X-Forwarded-For", "")] "7.7.7.7" := by
  refine ⟨rfl, rfl, ?_⟩
  decide

/-- C2 (amended): the resolver precedence holds with presence read as
presence with a non-empty value: a non-empty X-Forwarded-For wins and
yields its first comma-separated element trimmed; otherwise a non-empty
X-Real-IP is returned verbatim; otherwise the peer address.  The three
concrete examples of the claim hold as stated. -/
theorem get_client_ip_precedence :
    (∀ headers remote_addr s, List.lookup "X-Forwarded-For" headers = some s → s ≠ "" →
        get_client_ip headers remote_addr = pyStrip ((pySplit ',' s).headD "")) ∧
    (∀ headers remote_addr,
        (∀ s, List.lookup "X-Forwarded-For" headers = some s → s = "") →
        ∀ s, List.lookup "X-Real-IP" headers = some s → s ≠ "" →
        get_client_ip headers remote_addr = s) ∧
    (∀ headers remote_addr,
        (∀ s, List.lookup "X-Forwarded-For" headers = some s → s = "") →
        (∀ s, List.lookup "X-Real-IP" headers = some s → s = "") →
        get_client_ip headers remote_addr = remote_addr) ∧
    get_client_ip [("X-Forwarded-For", "1.2.3.4, 5.6.7.8"), ("X-Real-IP", "9.9.9.9")]
      "0.0.0.0" = "1.2.3.4" ∧
    get_client_ip [("X-Real-IP", "9.9.9.9")] "0.0.0.0" = "9.9.9.9" ∧
    get_client_ip [] "10.1.1.1" = "10.1.1.1" := by
  refine ⟨?_, ?_, ?_, by decide, by decide, by decide⟩
  · intro headers remote_addr s hs hne
    unfold get_client_ip
    simp [hs, truthy, hne]
  · intro headers remote_addr hfwd s hs hne
    unfold get_client_ip
    cases hl : List.lookup "X-Forwarded-For" headers with
    | none => simp [hl, hs, truthy, hne]
    | some t =>
        have ht := hfwd t hl
        subst ht
        simp [hl, hs, truthy, hne]
  · intro headers remote_addr hfwd hreal
    unfold get_client_ip
    cases hl : List.lookup "X-Forwarded-For" headers with
    | none =>
        cases hr : List.lookup "X-Real-IP" headers with
        | none => simp [hl, hr, truthy]
        | some t =>
            have ht := hreal t hr
            subst ht
            simp [hl, hr, truthy]
    | some t =>
        have ht := hfwd t hl
        subst ht
        cases hr : List.lookup "X-Real-IP" headers with
        | none => simp [hl, hr, truthy]
        | some u =>
            have hu := hreal u hr
            subst hu
            simp [hl, hr, truthy]

/-- Witness for C2's amended theorem: each of the three conditional
clauses applied at a concrete header map. -/
theorem get_client_ip_precedence_app :
    get_client_ip [("X-Forwarded-For", " 1.2.3.4 ,5.6.7.8")] "0.0.0.0" =
      pyStrip ((pySplit ',' " 1.2.3.4 ,5.6.7.8").headD "") ∧
    get_client_ip [("X-Forwarded-For", ""), ("X-Real-IP", "9.9.9.9")] "0.0.0.0" =
      "9.9.9.9" ∧
    get_client_ip [("X-Forwarded-For", ""), ("X-Real-IP", "")] "3.3.3.3" = "3.3.3.3" := by
  refine ⟨?_, ?_, ?_⟩
  · exact get_client_ip_precedence.1 _ "0.0.0.0" _ rfl (by decide)
  · exact get_client_ip_precedence.2.1 _ "0.0.0.0" (by decide) _ rfl (by decide)
  · exact get_client_ip_precedence.2.2.1 _ "3.3.3.3" (by decide) (by decide)

/-- C3: when the JSON store file is absent, or present but unreadable or
syntactically invalid, `load_data` returns the default document with an
empty click log; being a total function, it surfaces no error. -/
theorem load_data_recovers_empty :
    load_data .absent = .obj [("clicks", .arr [])] ∧
    load_data .corrupt = .obj [("clicks", .arr [])] ∧
    loadedClicks { dataFile := .absent, csvFile := none } = some [] ∧
    loadedClicks { dataFile := .corrupt, csvFile := none } = some [] :=
  ⟨rfl, rfl, rfl, rfl⟩

/-- C7: when the store holds a click log `L`, the JSON stats endpoint
returns, without modifying the store, the payload whose visitor total is
the length of `L`, whose clicks field is `L` itself, and whose
target-url field is the configured target. -/
theorem api_stats_payload (fs : FileSys) (L : List Json)
    (h : loadedClicks fs = some L) :
    api_stats fs = some (fs, .obj
      [("total_unique_visitors", .num L.length),
       ("clicks", .arr L),
       ("target_url", .str TARGET_URL)]) := by
  unfold loadedClicks at h
  split at h
  · rename_i l heq
    obtain rfl := Option.some.inj h
    unfold api_stats
    simp [heq, pyLen]
  · exact Option.noConfusion h

/-- Witness for C7 at the empty store. -/
theorem api_stats_payload_app :
    api_stats initFS = some (initFS, .obj
      [("total_unique_visitors", .num 0),
       ("clicks", .arr []),
       ("target_url", .str TARGET_URL)]) :=
  api_stats_payload initFS [] rfl

/-- C9: the HTML stats view, the JSON stats view and the home view are
pure reads: any completed invocation returns the file system it was
given, so neither the JSON log nor the CSV file changes. -/
theorem views_no_writes (fs : FileSys) :
    (∀ fs' v, show_stats fs = some (fs', v) → fs' = fs) ∧
    (∀ fs' j, api_stats fs = some (fs', j) → fs' = fs) ∧
    (∀ fs' s, home fs = some (fs', s) → fs' = fs) := by
  refine ⟨?_, ?_, ?_⟩ <;> intro fs' o h
  · simp only [show_stats] at h
    repeat' split at h
    all_goals simp_all
  · simp only [api_stats] at h
    repeat' split at h
    all_goals simp_all
  · simp only [home, Option.some.injEq, Prod.mk.injEq] at h
    exact h.1.symm

/-- Witness for C9 at the empty store. -/
theorem views_no_writes_app :
    (∃ p, show_stats initFS = some p ∧ p.1 = initFS) ∧
    (∃ p, api_stats initFS = some p ∧ p.1 = initFS) ∧
    (∃ p, home initFS = some p ∧ p.1 = initFS) := by
  refine ⟨⟨_, rfl, ?_⟩, ⟨_, rfl, ?_⟩, ⟨_, rfl, ?_⟩⟩
  · exact (views_no_writes initFS).1 _ _ rfl
  · exact (views_no_writes initFS).2.1 _ _ rfl
  · exact (views_no_writes initFS).2.2 _ _ rfl

/-- A store file whose document is an object whose clicks value is a
dict, not a list. -/
def badFS : FileSys :=
  { dataFile := .valid (.obj [("clicks", .obj [])]), csvFile := none }

/-- A store file whose document is a JSON array. -/
def badArrFS : FileSys := { dataFile := .valid (.arr []), csvFile := none }

/-- Counterexample to C10 as stated: on the syntactically valid document
whose clicks value is an empty dict (so not an object with a clicks
list), the loader returns it unchanged and the track handler faults, but
both stats views complete without fault (len of a dict is defined and an
empty dict is falsy), contradicting the claim that all three fail. -/
theorem load_no_schema_validation_cex :
    load_data (.valid (.obj [("clicks", .obj [])])) = .obj [("clicks", .obj [])] ∧
    track_click wreqA badFS = none ∧
    api_stats badFS = some (badFS, .obj
      [("total_unique_visitors", .num 0), ("clicks", .obj []),
       ("target_url", .str TARGET_URL)]) ∧
    show_stats badFS = some (badFS, ⟨0, none, TARGET_URL, DATA_FILE, CSV_FILE⟩) :=
  ⟨rfl, rfl, rfl, rfl⟩

/-- C10 (amended): `load_data` performs no schema validation and returns
any syntactically valid document unchanged.  When the document has no
clicks key at all (a JSON array, or an object lacking the key), the
track handler and both stats views fault at the clicks access.  When the
clicks value is a sized, falsy non-list — the empty dict or the empty
string — only the track handler faults (at the append); both stats views
complete, reporting that value's length (0) as the visitor count.  For a
truthy sized non-list such as a one-key dict, the HTML view faults too
(slicing the undefined timestamp of an iterated key) while the JSON view
still completes. -/
theorem load_no_schema_validation (j : Json) (req : Req) (fs : FileSys) :
    load_data (.valid j) = j ∧
    (fs.dataFile = .valid j → j.get "clicks" = none →
      track_click req fs = none ∧ api_stats fs = none ∧ show_stats fs = none) ∧
    (fs.dataFile = .valid j →
      (j.get "clicks" = some (.obj []) ∨ j.get "clicks" = some (.str "")) →
      track_click req fs = none ∧
      (api_stats fs).isSome = true ∧ (show_stats fs).isSome = true) ∧
    (fs.dataFile = .valid (.obj [("clicks", .obj [("k", .num 1)])]) →
      track_click req fs = none ∧
      (api_stats fs).isSome = true ∧ show_stats fs = none) := by
  refine ⟨rfl, ?_, ?_, ?_⟩
  · intro hfs hget
    unfold track_click api_stats show_stats
    rw [hfs]
    simp [load_data, hget]
  · intro hfs hv
    unfold track_click api_stats show_stats
    rw [hfs]
    have h0 : ("" : String).toList = [] := rfl
    rcases hv with hv | hv <;>
      simp [load_data, hv, pyIter, pyLen, pyTruthy, pyAppend, mapOpt, h0]
  · intro hfs
    unfold track_click api_stats show_stats
    rw [hfs]
    simp [load_data, Json.get, List.lookup, pyIter, pyLen, pyTruthy, pyAppend,
      mapOpt, clickRow]

/-- A store document whose clicks value is the empty string. -/
def badStrFS : FileSys :=
  { dataFile := .valid (.obj [("clicks", .str "")]), csvFile := none }

/-- A store document whose clicks value is a truthy non-list. -/
def badTruthyFS : FileSys :=
  { dataFile := .valid (.obj [("clicks", .obj [("k", .num 1)])]), csvFile := none }

/-- Witness for C10's amended theorem: at a JSON-array store document
every handler faults at the clicks access; at an empty-string clicks
value only the track handler faults; at a truthy one-key-dict clicks
value the HTML view faults as well while the JSON view completes. -/
theorem load_no_schema_validation_app :
    (track_click wreqA badArrFS = none ∧ api_stats badArrFS = none ∧
      show_stats badArrFS = none) ∧
    (track_click wreqA badStrFS = none ∧
      (api_stats badStrFS).isSome = true ∧ (show_stats badStrFS).isSome = true) ∧
    (track_click wreqA badTruthyFS = none ∧
      (api_stats badTruthyFS).isSome = true ∧ show_stats badTruthyFS = none) :=
  ⟨(load_no_schema_validation (.arr []) wreqA badArrFS).2.1 rfl rfl,
   (load_no_schema_validation (.obj [("clicks", .str "")]) wreqA badStrFS).2.2.1
     rfl (Or.inr rfl),
   (load_no_schema_validation (.obj [("clicks", .obj [("k", .num 1)])]) wreqA
     badTruthyFS).2.2.2 rfl⟩

/-- A click record of the data model: the three string fields every
record written by the tracker carries. -/
structure ClickRecord where
  ip : String
  timestamp : String
  user_agent : String

/-- The JSON object of a record. -/
def recordJson (c : ClickRecord) : Json :=
  .obj [("ip", .str c.ip), ("timestamp", .str c.timestamp),
        ("user_agent", .str c.user_agent)]

/-- The CSV row of a well-formed record is its three fields in order. -/
theorem csvRowOfClick_recordJson (c : ClickRecord) :
    csvRowOfClick (recordJson c) = some [c.ip, c.timestamp, c.user_agent] := rfl

/-- Row construction over a list of well-formed records. -/
theorem mapOpt_csvRow_recordJson (L : List ClickRecord) :
    mapOpt csvRowOfClick (L.map recordJson) =
      some (L.map fun c => [c.ip, c.timestamp, c.user_agent]) := by
  induction L with
  | nil => rfl
  | cons c cs ih => simp [mapOpt, csvRowOfClick_recordJson, ih]

/-- C4: a completed save of a document whose click log is the record
list `L` writes that document to the JSON file and rewrites the CSV file
as the header row followed by exactly one row per record, in order, row
i holding the ip, timestamp and user-agent fields of record i; in
particular the data row count equals the saved log's record count. -/
theorem save_data_csv_rows (data : Json) (L : List ClickRecord)
    (h : data.get "clicks" = some (.arr (L.map recordJson))) :
    save_data data = some (data,
      csvHeader :: L.map (fun c => [c.ip, c.timestamp, c.user_agent])) ∧
    (L.map fun c => [c.ip, c.timestamp, c.user_agent]).length =
      (L.map recordJson).length := by
  constructor
  · unfold save_data
    simp [h, pyIter, mapOpt_csvRow_recordJson]
  · simp

/-- A concrete record for the C4 witness. -/
def wrecB : ClickRecord := ⟨"10.0.0.1", "2025-06-01T12:00:00", "curl/8.0"⟩

/-- Witness for C4 at a one-record log. -/
theorem save_data_csv_rows_app :
    save_data (.obj [("clicks", .arr ([wrecB].map recordJson))]) =
      some (.obj [("clicks", .arr ([wrecB].map recordJson))],
        csvHeader :: [wrecB].map (fun c => [c.ip, c.timestamp, c.user_agent])) :=
  (save_data_csv_rows (.obj [("clicks", .arr ([wrecB].map recordJson))]) [wrecB] rfl).1

/-- Whether the resolved IP of `r` already appears among the resolved
IPs of the kept requests `acc` (the uniqueness check of the handler, as
the fold sees it). -/
def seenIp (acc : List Req) (r : Req) : Bool :=
  acc.any (fun a => clientIpOf r == clientIpOf a)

/-- First-occurrence filter (spec side): process requests left to
right, keeping exactly each request whose resolved IP has not been kept
before — the first call of every distinct IP, in arrival order. -/
def firstCallsAux (acc : List Req) : List Req → List Req
  | [] => acc
  | r :: rs => firstCallsAux (if seenIp acc r then acc else acc ++ [r]) rs

/-- The first call of each distinct resolved IP, in order of first
arrival. -/
def firstCalls (reqs : List Req) : List Req := firstCallsAux [] reqs

/-- The CSV file contents corresponding to a kept-request log. -/
def csvOfReqs (l : List Req) : List (List String) :=
  csvHeader :: l.map (fun a => [clientIpOf a, a.now, uaOf a])

/-- The file-system state holding exactly the records of the kept
requests `l`. -/
def stateFor (l : List Req) : FileSys :=
  { dataFile := .valid (.obj [("clicks", .arr (l.map recordOf))]),
    csvFile := some (csvOfReqs l) }

/-- The state reached by running `reqs` from the empty store. -/
def runResult (reqs : List Req) : FileSys :=
  match reqs with
  | [] => initFS
  | _ :: _ => stateFor (firstCalls reqs)

/-- The stored log of `stateFor l` is the record list of `l`. -/
theorem loadedClicks_stateFor (l : List Req) :
    loadedClicks (stateFor l) = some (l.map recordOf) := rfl

/-- Extracting the ip field from each kept record succeeds and yields
the resolved IPs. -/
theorem mapOpt_get_ip (acc : List Req) :
    mapOpt (fun c => c.get "ip") (acc.map recordOf) =
      some (acc.map fun a => Json.str (clientIpOf a)) := by
  induction acc with
  | nil => rfl
  | cons a as ih => simp only [List.map_cons, mapOpt, ih]; rfl

/-- The CSV row of a request's record. -/
theorem csvRow_recordOf (a : Req) :
    csvRowOfClick (recordOf a) = some [clientIpOf a, a.now, uaOf a] := rfl

/-- CSV row construction over kept records succeeds. -/
theorem mapOpt_csvRow_recordOf (l : List Req) :
    mapOpt csvRowOfClick (l.map recordOf) =
      some (l.map fun a => [clientIpOf a, a.now, uaOf a]) := by
  induction l with
  | nil => rfl
  | cons a as ih => simp only [List.map_cons, mapOpt, csvRow_recordOf, ih]

/-- Reading the clicks key of the one-key store document. -/
theorem get_clicks_obj (v : Json) :
    (Json.obj [("clicks", v)]).get "clicks" = some v := rfl

/-- Overwriting the clicks key of the one-key store document. -/
theorem objSet_clicks (v w : Json) :
    (Json.obj [("clicks", v)]).objSet "clicks" w = Json.obj [("clicks", w)] := rfl

/-- `save_data` on a reachable document writes it back together with
the full CSV mirror. -/
theorem save_data_clicks (l : List Req) :
    save_data (Json.obj [("clicks", .arr (l.map recordOf))]) =
      some (Json.obj [("clicks", .arr (l.map recordOf))], csvOfReqs l) := by
  unfold save_data
  simp [get_clicks_obj, pyIter, mapOpt_csvRow_recordOf, csvOfReqs]

/-- The membership scan of the handler equals the `seenIp` guard. -/
theorem any_pyEqStr_map (acc : List Req) (r : Req) :
    (acc.map fun a => Json.str (clientIpOf a)).any
      (pyEqStr (get_client_ip r.headers r.remote_addr)) = seenIp acc r := by
  induction acc with
  | nil => rfl
  | cons a as ih => simp [pyEqStr, seenIp, clientIpOf] at ih ⊢; rw [ih]

/-- One track invocation on a reachable state: the seen branch leaves
the state alone, the unseen branch appends the new record to both
files. -/
theorem track_click_stateFor (r : Req) (acc : List Req) :
    track_click r (stateFor acc) =
      some (if seenIp acc r then (stateFor acc, Response.redirect TARGET_URL 302)
            else (stateFor (acc ++ [r]), Response.redirect TARGET_URL 302)) := by
  simp only [track_click, stateFor, load_data, get_clicks_obj, pyIter,
    mapOpt_get_ip, any_pyEqStr_map]
  by_cases hg : seenIp acc r
  · rw [if_pos hg, if_pos hg]
  · rw [if_neg hg, if_neg hg]
    simp only [pyAppend]
    rw [show (List.map recordOf acc ++ [(.obj
        [("ip", .str (get_client_ip r.headers r.remote_addr)),
         ("timestamp", .str r.now),
         ("user_agent", .str ((r.headers.lookup "User-Agent").getD "Unknown"))] : Json)]) =
        List.map recordOf (acc ++ [r]) by
      simp [recordOf, clientIpOf, uaOf]]
    rw [objSet_clicks, save_data_clicks]

/-- Running from a reachable state tracks the first-occurrence fold. -/
theorem runTrack_stateFor (reqs : List Req) : ∀ acc,
    runTrack reqs (stateFor acc) = some (stateFor (firstCallsAux acc reqs)) := by
  induction reqs with
  | nil => intro acc; rfl
  | cons r rs ih =>
      intro acc
      rw [runTrack, track_click_stateFor]
      by_cases hg : seenIp acc r
      · simp only [if_pos hg, firstCallsAux]
        exact ih acc
      · simp only [if_neg hg, firstCallsAux]
        exact ih (acc ++ [r])

/-- The first request on the empty store is always recorded. -/
theorem track_click_initFS (r : Req) :
    track_click r initFS = some (stateFor [r], .redirect TARGET_URL 302) := rfl

/-- Every run from the empty store completes, reaching `runResult`. -/
theorem runTrack_initFS (reqs : List Req) :
    runTrack reqs initFS = some (runResult reqs) := by
  cases reqs with
  | nil => rfl
  | cons r rs =>
      rw [runTrack, track_click_initFS]
      exact runTrack_stateFor rs [r]

/-- The guard holds exactly when the resolved IP was already kept. -/
theorem seenIp_iff (acc : List Req) (r : Req) :
    seenIp acc r = true ↔ clientIpOf r ∈ acc.map clientIpOf := by
  unfold seenIp
  rw [List.any_eq_true]
  constructor
  · rintro ⟨a, ha, hb⟩
    have hab : clientIpOf r = clientIpOf a := by simpa using hb
    rw [hab]
    exact List.mem_map_of_mem _ ha
  · intro h
    rcases List.mem_map.1 h with ⟨a, ha, hb⟩
    exact ⟨a, ha, by simp [hb]⟩

/-- The kept requests have pairwise distinct resolved IPs. -/
theorem nodup_firstCallsAux (reqs : List Req) : ∀ acc,
    (acc.map clientIpOf).Nodup → ((firstCallsAux acc reqs).map clientIpOf).Nodup := by
  induction reqs with
  | nil => intro acc h; exact h
  | cons r rs ih =>
      intro acc h
      by_cases hg : seenIp acc r
      · rw [firstCallsAux, if_pos hg]
        exact ih acc h
      · rw [firstCallsAux, if_neg hg]
        refine ih (acc ++ [r]) ?_
        have hnotin : clientIpOf r ∉ acc.map clientIpOf := by
          rw [← seenIp_iff]; simp [hg]
        rw [List.map_append, List.nodup_append]
        refine ⟨h, List.nodup_singleton _, ?_⟩
        intro a ha hb
        simp only [List.map_cons, List.map_nil, List.mem_singleton] at hb
        subst hb
        exact hnotin ha

/-- The resolved IPs of the kept requests are those of the whole input
(plus the accumulator). -/
theorem mem_firstCallsAux (reqs : List Req) : ∀ acc ip,
    ip ∈ (firstCallsAux acc reqs).map clientIpOf ↔
      ip ∈ acc.map clientIpOf ∨ ip ∈ reqs.map clientIpOf := by
  induction reqs with
  | nil => intro acc ip; simp [firstCallsAux]
  | cons r rs ih =>
      intro acc ip
      by_cases hg : seenIp acc r
      · rw [firstCallsAux, if_pos hg, ih]
        have hr : clientIpOf r ∈ acc.map clientIpOf := (seenIp_iff acc r).1 hg
        simp only [List.map_cons, List.mem_cons]
        constructor
        · rintro (h | h)
          · exact Or.inl h
          · exact Or.inr (Or.inr h)
        · rintro (h | h | h)
          · exact Or.inl h
          · exact Or.inl (h ▸ hr)
          · exact Or.inr h
      · rw [firstCallsAux, if_neg hg, ih]
        simp only [List.map_append, List.map_cons, List.map_nil, List.mem_append,
          List.mem_cons, List.mem_singleton, List.not_mem_nil, or_false]
        constructor
        · rintro ((h | h) | h)
          · exact Or.inl h
          · exact Or.inr (Or.inl h)
          · exact Or.inr (Or.inr h)
        · rintro (h | h | h)
          · exact Or.inl (Or.inl h)
          · exact Or.inl (Or.inr h)
          · exact Or.inr h

/-- Every kept request not from the accumulator occurs in the input
with no earlier same-IP request and its IP absent from the
accumulator. -/
theorem firstCallsAux_first (reqs : List Req) : ∀ acc r',
    r' ∈ firstCallsAux acc reqs → r' ∈ acc ∨
      ∃ pre post, reqs = pre ++ r' :: post ∧
        clientIpOf r' ∉ acc.map clientIpOf ∧
        ∀ p ∈ pre, clientIpOf p ≠ clientIpOf r' := by
  induction reqs with
  | nil => intro acc r' h; exact Or.inl h
  | cons r rs ih =>
      intro acc r' h
      by_cases hg : seenIp acc r
      · rw [firstCallsAux, if_pos hg] at h
        rcases ih acc r' h with h1 | ⟨pre, post, heq, hnot, hpre⟩
        · exact Or.inl h1
        · refine Or.inr ⟨r :: pre, post, by rw [heq]; rfl, hnot, ?_⟩
          intro p hp
          rcases List.mem_cons.1 hp with rfl | hp'
          · have hr : clientIpOf p ∈ acc.map clientIpOf := (seenIp_iff acc p).1 hg
            intro hcontra; exact hnot (hcontra ▸ hr)
          · exact hpre p hp'
      · rw [firstCallsAux, if_neg hg] at h
        rcases ih (acc ++ [r]) r' h with h1 | ⟨pre, post, heq, hnot, hpre⟩
        · rcases List.mem_append.1 h1 with h2 | h2
          · exact Or.inl h2
          · have hrr : r' = r := by simpa using h2
            subst hrr
            refine Or.inr ⟨[], rs, rfl, ?_, by simp⟩
            rw [← seenIp_iff]; simp [hg]
        · refine Or.inr ⟨r :: pre, post, by rw [heq]; rfl, ?_, ?_⟩
          · intro hc
            exact hnot (by simp [hc])
          · intro p hp
            rcases List.mem_cons.1 hp with rfl | hp'
            · intro hcontra
              exact hnot (by simp [hcontra])
            · exact hpre p hp'

/-- Processing an appended tail continues the fold. -/
theorem firstCallsAux_append (l1 l2 : List Req) : ∀ acc,
    firstCallsAux acc (l1 ++ l2) = firstCallsAux (firstCallsAux acc l1) l2 := by
  induction l1 with
  | nil => intro acc; rfl
  | cons x xs ih =>
      intro acc
      rw [List.cons_append, firstCallsAux, firstCallsAux]
      exact ih _

/-- A later call from an already-seen IP changes nothing. -/
theorem firstCalls_append_seen (reqs : List Req) (r : Req)
    (h : clientIpOf r ∈ reqs.map clientIpOf) :
    firstCalls (reqs ++ [r]) = firstCalls reqs := by
  unfold firstCalls
  rw [firstCallsAux_append]
  have hmem : clientIpOf r ∈ (firstCallsAux [] reqs).map clientIpOf := by
    rw [mem_firstCallsAux]
    exact Or.inr h
  have hg : seenIp (firstCallsAux [] reqs) r = true := (seenIp_iff _ r).2 hmem
  rw [firstCallsAux, if_pos hg]
  rfl

/-- C1: any sequence of sequential track invocations from the empty
store completes, and the resulting stored log holds exactly one record
per distinct resolved IP — the record of that IP's first call (its
timestamp and user-agent), in first-arrival order: the kept IPs are
pairwise distinct and are exactly the IPs of the sequence, the log
length is the number K of distinct IPs, each kept request is the first
of its IP, and appending one more call from an already-seen IP leaves
the run's outcome unchanged. -/
theorem track_sequential_unique (reqs : List Req) :
    ∃ fs', runTrack reqs initFS = some fs' ∧
      loadedClicks fs' = some ((firstCalls reqs).map recordOf) ∧
      ((firstCalls reqs).map clientIpOf).Nodup ∧
      (∀ ip, ip ∈ (firstCalls reqs).map clientIpOf ↔ ip ∈ reqs.map clientIpOf) ∧
      (firstCalls reqs).length = (reqs.map clientIpOf).dedup.length ∧
      (∀ r' ∈ firstCalls reqs, ∃ pre post, reqs = pre ++ r' :: post ∧
          ∀ p ∈ pre, clientIpOf p ≠ clientIpOf r') ∧
      (∀ r, clientIpOf r ∈ reqs.map clientIpOf →
          runTrack (reqs ++ [r]) initFS = runTrack reqs initFS) := by
  have hnd : ((firstCalls reqs).map clientIpOf).Nodup :=
    nodup_firstCallsAux reqs [] (by simp)
  have hmem : ∀ ip, ip ∈ (firstCalls reqs).map clientIpOf ↔
      ip ∈ reqs.map clientIpOf := by
    intro ip
    have h := mem_firstCallsAux reqs [] ip
    simpa [firstCalls] using h
  refine ⟨runResult reqs, runTrack_initFS reqs, ?_, hnd, hmem, ?_, ?_, ?_⟩
  · cases reqs with
    | nil => rfl
    | cons r rs => exact loadedClicks_stateFor _
  · have h3 : ((firstCalls reqs).map clientIpOf).toFinset =
        (reqs.map clientIpOf).toFinset := by
      ext x
      simp only [List.mem_toFinset]
      exact hmem x
    calc (firstCalls reqs).length
        = ((firstCalls reqs).map clientIpOf).length := (List.length_map _ _).symm
      _ = ((firstCalls reqs).map clientIpOf).toFinset.card :=
          (List.toFinset_card_of_nodup hnd).symm
      _ = (reqs.map clientIpOf).toFinset.card := by rw [h3]
      _ = (reqs.map clientIpOf).dedup.length := List.card_toFinset _
  · intro r' hr'
    rcases firstCallsAux_first reqs [] r' hr' with h1 | ⟨pre, post, heq, _, hpre⟩
    · simp at h1
    · exact ⟨pre, post, heq, hpre⟩
  · intro r hmemr
    rw [runTrack_initFS, runTrack_initFS]
    cases reqs with
    | nil => simp at hmemr
    | cons r0 rest =>
        congr 1
        show stateFor (firstCalls ((r0 :: rest) ++ [r])) =
          stateFor (firstCalls (r0 :: rest))
        rw [firstCalls_append_seen _ _ hmemr]

/-- A second concrete request with a distinct resolved IP (via
X-Real-IP). -/
def wreqC : Req :=
  { headers := [("X-Real-IP", "9.9.9.9"), ("User-Agent", "Mozilla/5.0")],
    remote_addr := "10.0.0.2",
    now := "2025-06-01T12:00:05", utcNow := "2025-06-01T16:00:05" }

/-- Witness for C1 on a three-call sequence with two distinct IPs, the
third call repeating the first IP. -/
theorem track_sequential_unique_app :
    (∃ fs', runTrack [wreqA, wreqC, wreqA] initFS = some fs' ∧
        loadedClicks fs' = some ((firstCalls [wreqA, wreqC, wreqA]).map recordOf)) ∧
    (firstCalls [wreqA, wreqC, wreqA]).length =
      (([wreqA, wreqC, wreqA].map clientIpOf).dedup).length ∧
    runTrack ([wreqA, wreqC, wreqA] ++ [wreqA]) initFS =
      runTrack [wreqA, wreqC, wreqA] initFS := by
  obtain ⟨fs', h1, h2, h3, h4, h5, h6, h7⟩ :=
    track_sequential_unique [wreqA, wreqC, wreqA]
  exact ⟨⟨fs', h1, h2⟩, h5, h7 wreqA (by decide)⟩
